import Mathlib

/-!
Verification of the streaming caption pipeline of the subtitles-generator
repository. The definitions below are a shallow embedding of the Python
source: strings are lists of characters, Python string operations
(strip, upper, negative slicing, substring test, replace) are modelled
explicitly, and each pipeline loop becomes a pure function over the data
it consumes in one pass.

Main embedded code:
* live_translate/live_translate.py: capture_audio_loop (normalisation and
  error handling), translate_loop, update_gui (the display-buffer
  reconciliation for partial/final events, composition and trimming).
* live_captions/live_captions.py and the optimised caption variant:
  capture_audio classification via the in-band "..." marker and the
  corresponding update_gui buffer handling.
-/

/-- Characters Python's str.strip removes (the ASCII whitespace set). -/
def isPySpace (c : Char) : Bool :=
  c = ' ' || c = '\t' || c = '\n' || c = '\r' || c = '\x0b' || c = '\x0c'

/-- Python str.strip: drop whitespace from both ends. -/
def pyStrip (s : List Char) : List Char :=
  ((s.dropWhile isPySpace).reverse.dropWhile isPySpace).reverse

/-- Python str.upper, per character. -/
def pyUpper (s : List Char) : List Char :=
  s.map Char.toUpper

/-- Python s[-n:]: the trailing n characters, except that n = 0 yields the
whole string (since -0 == 0 in Python, s[-0:] is s[0:]). -/
def pyTail (s : List Char) (n : Nat) : List Char :=
  if n = 0 then s else s.drop (s.length - n)

/-- The in-band marker "..." appended to partial hypotheses. -/
def ellipsisMark : List Char := '.' :: '.' :: '.' :: []

/-- A recognition event as enqueued by capture_audio_loop:
recognized text plus the final/partial flag. -/
structure RecEvent where
  text : List Char
  is_final : Bool
deriving DecidableEq, Repr

/-- An event after translate_loop: the original text, the flag, and the
translated text added by the stage. -/
structure TransEvent where
  text : List Char
  is_final : Bool
  translated_text : List Char
deriving DecidableEq, Repr

/-- The display state of live_translate.py: the accumulated final text
(text_buffer, the spec's committed) and the latest partial
(partial_text, the spec's pendingPartial). -/
structure LTState where
  text_buffer : List Char
  partial_text : List Char
deriving DecidableEq, Repr

/-- One iteration of the drain loop in update_gui (live_translate.py):
a final event appends " " + translated text to text_buffer and clears
partial_text; a non-final event overwrites partial_text with the
translated text plus "...". -/
def processItem (s : LTState) (it : TransEvent) : LTState :=
  if it.is_final then
    { text_buffer := s.text_buffer ++ ' ' :: it.translated_text, partial_text := [] }
  else
    { text_buffer := s.text_buffer, partial_text := it.translated_text ++ ellipsisMark }

/-- The while-not-empty drain loop of update_gui: process the queued
events in FIFO order. -/
def drain (s : LTState) (q : List TransEvent) : LTState :=
  q.foldl processItem s

/-- Display composition in update_gui: text_buffer.strip(), plus a newline
and partial_text.strip() when partial_text is nonempty. -/
def composeDisplay (s : LTState) : List Char :=
  let d := pyStrip s.text_buffer
  if s.partial_text = [] then d else d ++ '\n' :: pyStrip s.partial_text

/-- One GUI tick of update_gui (live_translate.py): drain the queue, compose
the display text, and if the display text exceeds max_buffer_length trim it
to its trailing characters, also trimming text_buffer when text_buffer
itself exceeds the bound. Returns the new state and the displayed text. -/
def updateGuiTick (maxLen : Nat) (s : LTState) (q : List TransEvent) :
    LTState × List Char :=
  let s1 := drain s q
  let d := composeDisplay s1
  if maxLen < d.length then
    let d2 := pyTail d maxLen
    let tb2 := if maxLen < s1.text_buffer.length
               then pyTail s1.text_buffer maxLen
               else s1.text_buffer
    ({ text_buffer := tb2, partial_text := s1.partial_text }, d2)
  else
    (s1, d)

/-- Concatenation contributed to text_buffer by the final events of a
queue, each preceded by the single-space separator. -/
def finalsConcat : List TransEvent → List Char
  | [] => []
  | e :: rest =>
      if e.is_final then ' ' :: (e.translated_text ++ finalsConcat rest)
      else finalsConcat rest

theorem drain_cons (s : LTState) (e : TransEvent) (q : List TransEvent) :
    drain s (e :: q) = drain (processItem s e) q := rfl

theorem drain_text_buffer (q : List TransEvent) :
    ∀ s : LTState, (drain s q).text_buffer = s.text_buffer ++ finalsConcat q := by
  induction q with
  | nil => intro s; simp [drain, finalsConcat]
  | cons e rest ih =>
      intro s
      rw [drain_cons, ih]
      cases h : e.is_final with
      | true => simp [processItem, finalsConcat, h]
      | false => simp [processItem, finalsConcat, h]

/-- C1 counterexample: processing the partial event with text "hi" does not
set partial_text to "hi" — the code stores "hi" with the "..." marker
already appended, so the stored pending text differs from the event text. -/
theorem C1_counterexample :
    (processItem ⟨[], []⟩ ⟨"hi".data, false, "hi".data⟩).partial_text ≠ "hi".data := by
  decide

/-- C1 (amended): processing a partial event sets partial_text to the
event's text followed by the constant "..." marker, fully replacing any
previous pending text and leaving text_buffer unchanged; two consecutive
partial events with no intervening final leave the pending text determined
by the second event alone, never the concatenation of both. -/
theorem C1_partial_replace :
    (∀ (s : LTState) (t tr : List Char),
      processItem s ⟨t, false, tr⟩ = ⟨s.text_buffer, tr ++ ellipsisMark⟩)
    ∧ (∀ (s : LTState) (t1 tr1 t2 tr2 : List Char),
      drain s [⟨t1, false, tr1⟩, ⟨t2, false, tr2⟩]
        = ⟨s.text_buffer, tr2 ++ ellipsisMark⟩) := by
  constructor
  · intro s t tr
    simp [processItem]
  · intro s t1 tr1 t2 tr2
    simp [drain, processItem]

/-- C2: a final event appends the separator plus the event's text to
text_buffer exactly once and clears partial_text; over a whole drained
queue, text_buffer gains exactly the concatenation of the final events'
texts, each joined by the separator and contributed once. -/
theorem C2_final_appends_once :
    (∀ (s : LTState) (t tr : List Char),
      processItem s ⟨t, true, tr⟩ = ⟨s.text_buffer ++ ' ' :: tr, []⟩)
    ∧ (∀ (s : LTState) (q : List TransEvent),
      (drain s q).text_buffer = s.text_buffer ++ finalsConcat q) := by
  constructor
  · intro s t tr
    simp [processItem]
  · intro s q
    exact drain_text_buffer q s

theorem pyTail_suffix (s : List Char) (n : Nat) : pyTail s n <:+ s := by
  unfold pyTail
  split
  · exact List.suffix_refl s
  · exact List.drop_suffix _ _

theorem pyTail_length (s : List Char) (n : Nat) (h0 : n ≠ 0) (h : n ≤ s.length) :
    (pyTail s n).length = n := by
  unfold pyTail
  rw [if_neg h0, List.length_drop]
  omega

theorem updateGuiTick_tb (maxLen : Nat) (s : LTState) (q : List TransEvent) :
    (updateGuiTick maxLen s q).1.text_buffer =
      if maxLen < (composeDisplay (drain s q)).length
          ∧ maxLen < (drain s q).text_buffer.length
      then pyTail (drain s q).text_buffer maxLen
      else (drain s q).text_buffer := by
  unfold updateGuiTick
  by_cases hd : maxLen < (composeDisplay (drain s q)).length <;>
    by_cases hb : maxLen < (drain s q).text_buffer.length <;>
      simp [hd, hb]

/-- C3 counterexample: with maxBufferLength = 5, a single final event
"abcde" processed from the empty state leaves text_buffer = " abcde" of
length 6 > 5: the trim is guarded by the length of the stripped display
text (5 here), so the buffer, which keeps its leading separator, is not
truncated and exceeds the bound. -/
theorem C3_counterexample :
    ¬ ((updateGuiTick 5 ⟨[], []⟩ [⟨"abcde".data, true, "abcde".data⟩]).1.text_buffer.length ≤ 5) := by
  decide

/-- C3 (amended): the committed buffer is a sliding window in the sense
that any truncation keeps a trailing segment (the post-tick buffer is
always a suffix of the drained buffer, so text is only ever dropped from
the front), and when both the composed display text and the buffer exceed
maxBufferLength the buffer is cut to exactly its trailing maxBufferLength
characters; but the length bound itself is not an invariant: a buffer is
left untrimmed whenever the stripped display text fits the bound, so
text_buffer can exceed maxBufferLength after an event. -/
theorem C3_sliding_window :
    ∀ (maxLen : Nat) (s : LTState) (q : List TransEvent),
      ((updateGuiTick maxLen s q).1.text_buffer <:+ (drain s q).text_buffer)
      ∧ ((drain s q).text_buffer.length ≤ maxLen →
          (updateGuiTick maxLen s q).1.text_buffer = (drain s q).text_buffer)
      ∧ (maxLen < (composeDisplay (drain s q)).length →
         maxLen < (drain s q).text_buffer.length →
          (updateGuiTick maxLen s q).1.text_buffer
              = pyTail (drain s q).text_buffer maxLen
          ∧ (0 < maxLen →
              (updateGuiTick maxLen s q).1.text_buffer.length = maxLen)) := by
  intro maxLen s q
  have htb := updateGuiTick_tb maxLen s q
  refine ⟨?_, ?_, ?_⟩
  · rw [htb]
    split
    · exact pyTail_suffix _ _
    · exact List.suffix_refl _
  · intro hle
    rw [htb, if_neg]
    rintro ⟨-, h2⟩
    omega
  · intro h1 h2
    refine ⟨?_, ?_⟩
    · rw [htb, if_pos ⟨h1, h2⟩]
    · intro hpos
      rw [htb, if_pos ⟨h1, h2⟩]
      exact pyTail_length _ _ (by omega) (by omega)

/-- C3 witness: at maxBufferLength = 1 with one final event "ab", the
buffer " ab" and display "ab" both exceed the bound, and the buffer is cut
to its trailing single character. -/
theorem C3_sliding_window_witness :
    (updateGuiTick 1 ⟨[], []⟩ [⟨"ab".data, true, "ab".data⟩]).1.text_buffer
        = pyTail (drain ⟨[], []⟩ [⟨"ab".data, true, "ab".data⟩]).text_buffer 1
    ∧ (updateGuiTick 1 ⟨[], []⟩ [⟨"ab".data, true, "ab".data⟩]).1.text_buffer.length = 1 := by
  have h := (C3_sliding_window 1 ⟨[], []⟩ [⟨"ab".data, true, "ab".data⟩]).2.2
    (by decide) (by decide)
  exact ⟨h.1, h.2 (by decide)⟩

/-- C4 counterexample: from committed "abcdefghij" with maxBufferLength 10,
the final event "klm" does not produce "defghijklm": the code joins with a
space separator, so the buffer before trimming is "abcdefghij klm" and its
trailing 10 characters are "efghij klm". -/
theorem C4_counterexample :
    (updateGuiTick 10 ⟨"abcdefghij".data, []⟩
        [⟨"klm".data, true, "klm".data⟩]).1.text_buffer ≠ "defghijklm".data := by
  decide

/-- C4 (amended): with maxBufferLength = 10 and committed "abcdefghij",
the final event "klm" makes committed "efghij klm" — the trailing 10
characters of "abcdefghij klm", the separator space included. -/
theorem C4_scenario_b :
    (updateGuiTick 10 ⟨"abcdefghij".data, []⟩
        [⟨"klm".data, true, "klm".data⟩]).1.text_buffer = "efghij klm".data := by
  decide

/-- The recognizer's response to one audio frame in capture_audio_loop:
either AcceptWaveform returned true and Result() carries the finalized
text, or PartialResult() carries the current partial hypothesis. -/
inductive RecResponse where
  | finalRes (raw : List Char)
  | partialRes (raw : List Char)
deriving DecidableEq, Repr

/-- One read from the audio recorder: a frame (abstracted to the
recognizer response it elicits) or an I/O error raised by the device. -/
inductive ReadResult where
  | frame (resp : RecResponse)
  | ioError
deriving DecidableEq, Repr

/-- Result normalisation in capture_audio_loop (live_translate.py):
strip the recognized text and enqueue an event only when it is nonempty;
empty results are suppressed. -/
def normalizeResp : RecResponse → Option RecEvent
  | RecResponse.finalRes raw =>
      let t := pyStrip raw
      if t = [] then none else some ⟨t, true⟩
  | RecResponse.partialRes raw =>
      let t := pyStrip raw
      if t = [] then none else some ⟨t, false⟩

/-- capture_audio_loop (live_translate.py): while the shared running flag
holds, read one frame and enqueue at most one normalised event; an I/O
error from the device is caught by the except clause, which clears the
running flag and exits the loop without retrying. Returns the flag value
on exit and the events enqueued, in order. -/
def captureLoop : Bool → List ReadResult → Bool × List RecEvent
  | false, _ => (false, [])
  | true, [] => (true, [])
  | true, ReadResult.ioError :: _ => (false, [])
  | true, ReadResult.frame resp :: rest =>
      ((captureLoop true rest).1,
        (normalizeResp resp).toList ++ (captureLoop true rest).2)

/-- translate_loop body over a drained queue (live_translate.py): each
event's text is passed to the translator and the event is re-emitted with
the translated_text field added. The translator call sits in no
try/except: a raised error propagates out of translate_loop, so the
returned flag records that the loop died with the remaining events
unprocessed and nothing further emitted. -/
def translateItems (translator : List Char → Except Unit (List Char)) :
    List RecEvent → List TransEvent × Bool
  | [] => ([], false)
  | e :: rest =>
      match translator e.text with
      | Except.ok tr =>
          ((⟨e.text, e.is_final, tr⟩ : TransEvent) :: (translateItems translator rest).1,
            (translateItems translator rest).2)
      | Except.error _ => ([], true)

/-- translate_loop with its while-running guard: when the shared flag is
already false the loop body never runs, no event is consumed or emitted. -/
def translateRun (translator : List Char → Except Unit (List Char))
    (running : Bool) (q : List RecEvent) : List TransEvent × Bool :=
  if running then translateItems translator q else ([], false)

/-- One scheduled run of update_gui including its tail: the tick itself,
plus the reschedule decision root.after, taken only while running holds. -/
def guiStep (running : Bool) (maxLen : Nat) (s : LTState) (q : List TransEvent) :
    (LTState × List Char) × Bool :=
  (updateGuiTick maxLen s q, running)

theorem captureLoop_frames (resps : List RecResponse) :
    captureLoop true (resps.map ReadResult.frame)
      = (true, resps.filterMap normalizeResp) := by
  induction resps with
  | nil => rfl
  | cons r rest ih =>
      simp only [List.map_cons, captureLoop, ih, List.filterMap_cons]
      cases h : normalizeResp r <;> simp [h]

theorem captureLoop_error (resps : List RecResponse) (post : List ReadResult) :
    captureLoop true (resps.map ReadResult.frame ++ ReadResult.ioError :: post)
      = (false, resps.filterMap normalizeResp) := by
  induction resps with
  | nil => rfl
  | cons r rest ih =>
      simp only [List.map_cons, List.cons_append, captureLoop, ih, List.filterMap_cons]
      cases h : normalizeResp r <;> simp [h, ih]

/-- C5: evaluation of translate_loop at the failing input of Scenario C.
With a translator that raises on every call and the single final event
"bonjour" queued, the stage emits no event at all — in particular no event
with translated_text "bonjour" — and the loop dies on the uncaught
error instead of degrading to pass-through. -/
theorem C5_translator_crash :
    translateItems (fun _ => Except.error ()) [⟨"bonjour".data, true⟩]
      = ([], true) := by
  rfl

/-- C6: cooperative shutdown after a device error (Scenario D). For any
frames read before the failure, capture_audio_loop exits with the shared
flag cleared, having emitted exactly the events of the pre-error frames
and consumed nothing after the error (no retry); with the flag cleared,
translate_loop exits without consuming or emitting anything, and
update_gui does not reschedule itself. Every loop is a total function, so
each stage returns rather than blocking on a channel. -/
theorem C6_shutdown_propagation :
    ∀ (resps : List RecResponse) (post : List ReadResult) (q : List RecEvent)
      (translator : List Char → Except Unit (List Char))
      (maxLen : Nat) (s : LTState) (evs : List TransEvent),
      captureLoop true (resps.map ReadResult.frame ++ ReadResult.ioError :: post)
          = (false, resps.filterMap normalizeResp)
      ∧ translateRun translator false q = ([], false)
      ∧ (guiStep false maxLen s evs).2 = false := by
  intro resps post q translator maxLen s evs
  refine ⟨captureLoop_error resps post, ?_, rfl⟩
  simp [translateRun]

/-- C7 counterexample: an empty-text final event reaching the display
buffer is not a no-op — it appends the bare separator to text_buffer and
clears partial_text, changing the state. -/
theorem C7_counterexample :
    processItem ⟨"a".data, "p".data⟩ ⟨[], true, []⟩ ≠ (⟨"a".data, "p".data⟩ : LTState) := by
  decide

/-- C7 (amended): an empty recognizer result, partial or final, is
suppressed at the capture stage (no event is enqueued); the display buffer
itself does not special-case empty text: an empty final event appends the
bare separator to text_buffer and clears partial_text, and an empty
partial event sets partial_text to the "..." marker alone. -/
theorem C7_empty_events :
    (normalizeResp (RecResponse.finalRes []) = none)
    ∧ (normalizeResp (RecResponse.partialRes []) = none)
    ∧ (∀ s : LTState, processItem s ⟨[], true, []⟩ = ⟨s.text_buffer ++ [' '], []⟩)
    ∧ (∀ s : LTState, processItem s ⟨[], false, []⟩ = ⟨s.text_buffer, ellipsisMark⟩) := by
  refine ⟨rfl, rfl, ?_, ?_⟩
  · intro s
    simp [processItem]
  · intro s
    simp [processItem, ellipsisMark]

theorem length_filterMap_replicate_some {α β : Type} (f : α → Option β) (a : α)
    (b : β) (h : f a = some b) :
    ∀ n : Nat, (List.filterMap f (List.replicate n a)).length = n := by
  intro n
  induction n with
  | zero => rfl
  | succ k ih => simp [List.replicate_succ, List.filterMap_cons, h, ih]

/-- C8 counterexample: the recognition channel has no fixed finite
capacity — for every candidate bound there is a run of frames after which
the capture loop has enqueued more events than that bound (the code
creates Queue() with no maxsize, so puts never block and the backlog is
unbounded). -/
theorem C8_counterexample :
    ¬ ∃ c : Nat, ∀ resps : List RecResponse,
        ((captureLoop true (resps.map ReadResult.frame)).2).length ≤ c := by
  rintro ⟨c, h⟩
  have h1 := h (List.replicate (c + 1) (RecResponse.partialRes ['a']))
  rw [captureLoop_frames] at h1
  have h2 : normalizeResp (RecResponse.partialRes ['a']) = some ⟨['a'], false⟩ := by
    decide
  rw [length_filterMap_replicate_some normalizeResp _ _ h2 (c + 1)] at h1
  omega

/-- C8 (amended): the capture loop enqueues at most one event per frame
(its emissions are the filterMap of the per-frame normalisation, so their
count never exceeds the frame count) and delivery is order-preserving:
the translation stage re-emits the queued events in arrival order with
text and final flag unchanged. The channels themselves, however, are
created unbounded. -/
theorem C8_per_frame_fifo :
    ∀ (resps : List RecResponse) (f : List Char → List Char) (q : List RecEvent),
      (captureLoop true (resps.map ReadResult.frame)).2 = resps.filterMap normalizeResp
      ∧ ((captureLoop true (resps.map ReadResult.frame)).2).length ≤ resps.length
      ∧ (translateItems (fun t => Except.ok (f t)) q).1.map
          (fun e => (e.text, e.is_final)) = q.map (fun e => (e.text, e.is_final)) := by
  intro resps f q
  refine ⟨by rw [captureLoop_frames], ?_, ?_⟩
  · rw [captureLoop_frames]
    exact List.length_filterMap_le _ _
  · induction q with
    | nil => rfl
    | cons e rest ih => simp [translateItems, ih]

/-- Python's substring test, as used by update_gui in the caption
variants: "..." in new_text. -/
def hasEllipsis (s : List Char) : Bool :=
  decide (ellipsisMark <:+: s)

/-- capture_audio of the caption variants: strip the recognized text,
suppress it when empty, otherwise enqueue the uppercased text, with "..."
appended when it is a partial hypothesis. -/
def lc_capture_item (isFinal : Bool) (raw : List Char) : Option (List Char) :=
  let t := pyStrip raw
  if t = [] then none
  else if isFinal then some (pyUpper t) else some (pyUpper t ++ ellipsisMark)

/-- update_gui of live_captions.py for one dequeued item: an item
containing "..." is shown after the buffer without being appended to it;
any other item is appended to the buffer. Returns the new buffer and the
displayed text (sliced to the trailing max_buffer_length characters). -/
def lc_update (maxLen : Nat) (tb item : List Char) : List Char × List Char :=
  if hasEllipsis item then (tb, pyTail (tb ++ ' ' :: item) maxLen)
  else (tb ++ ' ' :: item, pyTail (tb ++ ' ' :: item) maxLen)

/-- Python str.replace("...", ""): remove the leftmost non-overlapping
occurrences of the marker. -/
def removeEllipsis : List Char → List Char
  | '.' :: '.' :: '.' :: rest => removeEllipsis rest
  | c :: rest => c :: removeEllipsis rest
  | [] => []

/-- update_gui of the optimised caption variant: an item containing "..."
replaces the whole buffer, any other item is appended; the displayed text
is the sliced buffer with every "..." removed. -/
def lco_update (maxLen : Nat) (tb item : List Char) : List Char × List Char :=
  let tb2 := if hasEllipsis item then item else tb ++ ' ' :: item
  (tb2, removeEllipsis (pyTail tb2 maxLen))

theorem hasEllipsis_upper (s : List Char) (h : hasEllipsis s = true) :
    hasEllipsis (pyUpper s) = true := by
  unfold hasEllipsis at h ⊢
  rw [decide_eq_true_iff] at h ⊢
  have hm : ellipsisMark.map Char.toUpper = ellipsisMark := by decide
  have := h.map Char.toUpper
  rwa [hm] at this

/-- C9: in the caption variants an enqueued item is classified as a
partial hypothesis exactly when it contains the "..." substring: the
live_captions buffer is left unchanged by the item precisely in that
case. Consequently a final utterance whose stripped recognized text
itself contains "..." is enqueued uppercased, still contains "...", and
is treated as a partial: live_captions never appends it to the committed
buffer, and the optimised variant replaces the buffer with it instead of
appending. -/
theorem C9_ellipsis_classification :
    (∀ (maxLen : Nat) (tb item : List Char),
        ((lc_update maxLen tb item).1 = tb ↔ hasEllipsis item = true))
    ∧ (∀ raw : List Char, hasEllipsis (pyStrip raw) = true →
        lc_capture_item true raw = some (pyUpper (pyStrip raw))
        ∧ hasEllipsis (pyUpper (pyStrip raw)) = true
        ∧ (∀ (maxLen : Nat) (tb : List Char),
            (lc_update maxLen tb (pyUpper (pyStrip raw))).1 = tb)
        ∧ (∀ (maxLen : Nat) (tb : List Char),
            (lco_update maxLen tb (pyUpper (pyStrip raw))).1
              = pyUpper (pyStrip raw))) := by
  constructor
  · intro maxLen tb item
    cases h : hasEllipsis item with
    | true => simp [lc_update, h]
    | false =>
        simp only [lc_update, h, Bool.false_eq_true, if_false, iff_false]
        intro heq
        have hlen := congrArg List.length heq
        simp at hlen
  · intro raw h
    have hne : pyStrip raw ≠ [] := by
      intro h0
      rw [h0] at h
      exact absurd h (by decide)
    have hup : hasEllipsis (pyUpper (pyStrip raw)) = true := hasEllipsis_upper _ h
    refine ⟨?_, hup, ?_, ?_⟩
    · unfold lc_capture_item
      simp [hne]
    · intro maxLen tb
      simp [lc_update, hup]
    · intro maxLen tb
      simp [lco_update, hup]

/-- C9 witness: the final utterance "ab..." stays marked after stripping
and uppercasing, so live_captions leaves the buffer "X Y" untouched and
the optimised variant replaces its buffer with the item. -/
theorem C9_ellipsis_classification_witness :
    lc_capture_item true "ab...".data = some (pyUpper (pyStrip "ab...".data))
    ∧ (lc_update 100 "X Y".data (pyUpper (pyStrip "ab...".data))).1 = "X Y".data
    ∧ (lco_update 100 "X Y".data (pyUpper (pyStrip "ab...".data))).1
        = pyUpper (pyStrip "ab...".data) := by
  have h := C9_ellipsis_classification.2 "ab...".data (by decide)
  exact ⟨h.1, h.2.2.1 100 "X Y".data, h.2.2.2 100 "X Y".data⟩

/-- np.clip(x, lo, hi): minimum(hi, maximum(x, lo)), over exact rationals
standing in for the float samples. -/
def npClip (lo hi x : ℚ) : ℚ :=
  min hi (max lo x)

/-- astype(np.int16) on a scalar: truncation toward zero. -/
def ratTrunc (q : ℚ) : ℤ :=
  if 0 ≤ q then ⌊q⌋ else ⌈q⌉

/-- The per-sample arithmetic of the capture stages: multiply by the
configured gain, clip to the unit interval, scale by 32767 and convert to
a 16-bit integer. -/
def quantizeSample (boost x : ℚ) : ℤ :=
  ratTrunc (npClip (-1) 1 (x * boost) * 32767)

/-- C10: for every sample and every gain factor, the clipped and scaled
sample converts to an integer in the interval -32767 .. 32767, inside the
signed 16-bit range, so the int16 conversion never overflows however
large the configured audio_boost is. -/
theorem C10_no_overflow :
    ∀ boost x : ℚ, -32767 ≤ quantizeSample boost x ∧ quantizeSample boost x ≤ 32767 := by
  intro boost x
  unfold quantizeSample
  set y := npClip (-1) 1 (x * boost) with hy
  have hy1 : -1 ≤ y := by
    rw [hy]
    unfold npClip
    exact le_min (by norm_num) (le_max_left _ _)
  have hy2 : y ≤ 1 := by
    rw [hy]
    unfold npClip
    exact min_le_left _ _
  have hm1 : (-32767 : ℚ) ≤ y * 32767 := by nlinarith [hy1]
  have hm2 : y * 32767 ≤ 32767 := by nlinarith [hy2]
  unfold ratTrunc
  by_cases h0 : (0 : ℚ) ≤ y * 32767
  · rw [if_pos h0]
    constructor
    · have hnn : (0 : ℤ) ≤ ⌊y * 32767⌋ := Int.floor_nonneg.mpr h0
      omega
    · have hfl : ((⌊y * 32767⌋ : ℤ) : ℚ) ≤ 32767 := le_trans (Int.floor_le _) hm2
      exact_mod_cast hfl
  · rw [if_neg h0]
    push_neg at h0
    constructor
    · have hcl : (-32767 : ℚ) ≤ ((⌈y * 32767⌉ : ℤ) : ℚ) := le_trans hm1 (Int.le_ceil _)
      exact_mod_cast hcl
    · have hcp : ⌈y * 32767⌉ ≤ (0 : ℤ) := Int.ceil_le.mpr (by push_cast; linarith)
      omega
